import Mathlib

/-!
A verification development for a single-file AWS Lambda CSV transform
(`LambdaFunction.py`).  The handler fetches a CSV object, resolves the
"status" and "order date" columns by normalized header aliases, drops rows
whose status is pending/cancelled and whose parsed date is not strictly
after a 30-day cutoff, and writes the kept rows to a derived key.

The embedding below models the handler as a pure function of the decoded
text lines, the invocation cutoff, and the decoded source key.  The S3
fetch and put are external I/O: the fetch result is the `lines` input and
a successful put is represented by the written content carried in the
result.  The Python `csv` module is modelled for rows whose fields contain
no quoting or embedded separators (split on commas), which is the regime
all claims quantify over; `csv.DictReader` skips blank lines, zips the
header with each row's fields and stores any fields beyond the header
arity under its `None` restkey, and `csv.DictWriter` re-emits fields in
header order with CRLF line endings, raising `ValueError` on a row whose
dict holds keys outside the fieldnames (which for reader-produced rows is
exactly a row with restkey extras).
-/

/-- A `datetime.datetime` value as produced by `datetime.strptime` for the
formats used here: a calendar date at some time of day. -/
structure DateTime where
  year : Nat
  month : Nat
  day : Nat
  hour : Nat
  minute : Nat
  second : Nat
deriving Repr, DecidableEq

/-- Python `datetime` comparison `a < b`: lexicographic on the fields. -/
def DateTime.ltb (a b : DateTime) : Bool :=
  if a.year ≠ b.year then decide (a.year < b.year)
  else if a.month ≠ b.month then decide (a.month < b.month)
  else if a.day ≠ b.day then decide (a.day < b.day)
  else if a.hour ≠ b.hour then decide (a.hour < b.hour)
  else if a.minute ≠ b.minute then decide (a.minute < b.minute)
  else decide (a.second < b.second)

/-- Numeric value of a decimal digit character. -/
def digitVal (c : Char) : Nat := c.toNat - '0'.toNat

/-- The characters Python `str.strip()` removes (ASCII whitespace). -/
def isPySpace (c : Char) : Bool :=
  c = ' ' ∨ c = '\t' ∨ c = '\n' ∨ c = '\r' ∨ c = '\x0b' ∨ c = '\x0c'

/-- Python `s.strip()`: drop leading and trailing whitespace. -/
def stripStr (s : String) : String :=
  String.mk (((s.data.dropWhile isPySpace).reverse.dropWhile isPySpace).reverse)

/-- Python `s.lower()` for ASCII text. -/
def lowerStr (s : String) : String := String.mk (s.data.map Char.toLower)

/-- One token of a `strptime` format string: a directive or a literal
character.  The four formats in `DATE_FORMATS` use only `%Y`, `%m`, `%d`
and the literals `-` and `/`. -/
inductive Tok where
  | year
  | month
  | day
  | lit (c : Char)
deriving Repr, DecidableEq

/-- `"%Y-%m-%d"` -/
def fmtIsoDash : List Tok := [.year, .lit '-', .month, .lit '-', .day]

/-- `"%m/%d/%Y"` -/
def fmtUsSlash : List Tok := [.month, .lit '/', .day, .lit '/', .year]

/-- `"%Y/%m/%d"` -/
def fmtIsoSlash : List Tok := [.year, .lit '/', .month, .lit '/', .day]

/-- `"%d-%m-%Y"` -/
def fmtEuDash : List Tok := [.day, .lit '-', .month, .lit '-', .year]

/-- `DATE_FORMATS = ["%Y-%m-%d", "%m/%d/%Y", "%Y/%m/%d", "%d-%m-%Y"]`. -/
def DATE_FORMATS : List (List Tok) := [fmtIsoDash, fmtUsSlash, fmtIsoSlash, fmtEuDash]

/-- Ways CPython's `strptime` regex fragment `(?P<Y>\d\d\d\d)` for `%Y` can
consume the front of the input: exactly four digits. -/
def yearCands : List Char → List (Nat × List Char)
  | c1 :: c2 :: c3 :: c4 :: rest =>
    if c1.isDigit ∧ c2.isDigit ∧ c3.isDigit ∧ c4.isDigit then
      [(digitVal c1 * 1000 + digitVal c2 * 100 + digitVal c3 * 10 + digitVal c4, rest)]
    else []
  | _ => []

/-- Ways CPython's `strptime` regex fragment `1[0-2]|0[1-9]|[1-9]` for `%m`
can consume the front of the input, in alternation (preference) order. -/
def monthCands : List Char → List (Nat × List Char)
  | c1 :: c2 :: rest =>
      (if c1 = '1' ∧ '0' ≤ c2 ∧ c2 ≤ '2' then [(10 + digitVal c2, rest)] else [])
      ++ (if c1 = '0' ∧ '1' ≤ c2 ∧ c2 ≤ '9' then [(digitVal c2, rest)] else [])
      ++ (if '1' ≤ c1 ∧ c1 ≤ '9' then [(digitVal c1, c2 :: rest)] else [])
  | [c1] => if '1' ≤ c1 ∧ c1 ≤ '9' then [(digitVal c1, [])] else []
  | [] => []

/-- Ways CPython's `strptime` regex fragment `3[01]|[12]\d|0[1-9]|[1-9]`
for `%d` can consume the front of the input, in alternation order. -/
def dayCands : List Char → List (Nat × List Char)
  | c1 :: c2 :: rest =>
      (if c1 = '3' ∧ (c2 = '0' ∨ c2 = '1') then [(30 + digitVal c2, rest)] else [])
      ++ (if (c1 = '1' ∨ c1 = '2') ∧ c2.isDigit then [(10 * digitVal c1 + digitVal c2, rest)] else [])
      ++ (if c1 = '0' ∧ '1' ≤ c2 ∧ c2 ≤ '9' then [(digitVal c2, rest)] else [])
      ++ (if '1' ≤ c1 ∧ c1 ≤ '9' then [(digitVal c1, c2 :: rest)] else [])
  | [c1] => if '1' ≤ c1 ∧ c1 ≤ '9' then [(digitVal c1, [])] else []
  | [] => []

/-- The date fields recovered by a format match, with `strptime`'s
defaults (year 1900, month 1, day 1) before any directive binds them. -/
structure ParsedParts where
  year : Nat := 1900
  month : Nat := 1
  day : Nat := 1
deriving Repr, DecidableEq

/-- Match a format token list against the whole input, trying the
directive alternatives in regex preference order with backtracking, and
requiring the entire input to be consumed (`strptime` raises
"unconverted data remains" otherwise, which `parse_date` treats as this
format failing). -/
def matchToks : List Tok → List Char → ParsedParts → Option ParsedParts
  | [], [], acc => some acc
  | [], _ :: _, _ => none
  | .lit c :: ts, x :: rest, acc => if x = c then matchToks ts rest acc else none
  | .lit _ :: _, [], _ => none
  | .year :: ts, cs, acc =>
      (yearCands cs).findSome? (fun vr => matchToks ts vr.2 { acc with year := vr.1 })
  | .month :: ts, cs, acc =>
      (monthCands cs).findSome? (fun vr => matchToks ts vr.2 { acc with month := vr.1 })
  | .day :: ts, cs, acc =>
      (dayCands cs).findSome? (fun vr => matchToks ts vr.2 { acc with day := vr.1 })

/-- Gregorian leap year, as in Python's `calendar`/`datetime`. -/
def isLeap (y : Nat) : Bool := (y % 4 = 0 ∧ y % 100 ≠ 0) ∨ y % 400 = 0

/-- Days in a month, as validated by the `datetime.datetime` constructor. -/
def daysInMonth (y m : Nat) : Nat :=
  if m = 2 then (if isLeap y then 29 else 28)
  else if m = 4 ∨ m = 6 ∨ m = 9 ∨ m = 11 then 30 else 31

/-- The `datetime.datetime(year, month, day)` constructor: validates the
field ranges (MINYEAR 1 to MAXYEAR 9999) and yields midnight of the date;
an invalid date raises, which `parse_date` treats as this format
failing. -/
def mkDatetime (p : ParsedParts) : Option DateTime :=
  if 1 ≤ p.year ∧ p.year ≤ 9999 ∧ 1 ≤ p.month ∧ p.month ≤ 12 ∧
     1 ≤ p.day ∧ p.day ≤ daysInMonth p.year p.month
  then some ⟨p.year, p.month, p.day, 0, 0, 0⟩ else none

/-- `datetime.strptime(s, fmt)` for the formats in `DATE_FORMATS`:
match the format regex against the whole string, then construct the
datetime. -/
def strptime (fmt : List Tok) (s : String) : Option DateTime :=
  (matchToks fmt s.data {}).bind mkDatetime

/-- `parse_date`: try each format in `DATE_FORMATS` on the stripped input
and return the first success; `none` models the `ValueError` raised when
every format fails. -/
def parse_date (s : String) : Option DateTime :=
  DATE_FORMATS.findSome? (fun fmt => strptime fmt (stripStr s))

/-- Header normalization from the handler's dict comprehension:
`(h or "").strip().lower().replace(" ", "").replace("_", "")`. -/
def normalizeHeader (h : String) : String :=
  String.mk ((lowerStr (stripStr h)).data.filter (fun c => c ≠ ' ' ∧ c ≠ '_'))

/-- The `header_map` dict comprehension: each header keyed by its
normalization.  Represented as the association list in header order;
`lookupLast` gives Python-dict semantics where a later duplicate key
overwrites an earlier one. -/
def header_map (headers : List String) : List (String × String) :=
  headers.map (fun h => (normalizeHeader h, h))

/-- Python dict lookup on `header_map`: the value of the LAST pair whose
key matches (last occurrence wins), `none` when the key is absent. -/
def lookupLast (m : List (String × String)) (k : String) : Option String :=
  ((m.filter (fun p => p.1 = k)).getLast?).map (fun p => p.2)

/-- Resolve the status column: try normalized candidates `"status"`,
`"orderstatus"` in order, first match wins. -/
def resolveStatus (headers : List String) : Option String :=
  ["status", "orderstatus"].findSome? (fun cand => lookupLast (header_map headers) cand)

/-- The date-column candidate list from the source, each stripped of
underscores (`cand.replace("_", "")`) before lookup. -/
def dateCandidates : List String := ["orderdate", "date", "order_date"]

/-- Resolve the date column: try each candidate of `dateCandidates`,
normalized by deleting underscores, in order; first match wins. -/
def resolveDate (headers : List String) : Option String :=
  dateCandidates.findSome? (fun cand =>
    lookupLast (header_map headers) (String.mk (cand.data.filter (fun c => c ≠ '_'))))

/-- A data row as produced by `csv.DictReader`: the header-to-field pairs
of `dict(zip(fieldnames, row))` in header order, plus the values stored
under the `None` restkey when the row has more fields than the header
(`row[lf:]`), empty otherwise.  Python-dict lookup on the string keys is
given by `Row.get`. -/
structure Row where
  fields : List (String × String)
  extras : List String
deriving Repr, DecidableEq

/-- `row.get(k)` for a string key `k`: the value of the last pair with
key `k` (for duplicate headers the Python dict keeps the last zipped
value), `None` when absent.  The restkey `None` is never a string key, so
`extras` is not consulted. -/
def Row.get (row : Row) (k : String) : Option String :=
  ((row.fields.filter (fun p => p.1 = k)).getLast?).map (fun p => p.2)

/-- Accumulating splitter for `splitFields`. -/
def splitCommaAux : List Char → List Char → List String
  | [], acc => [String.mk acc.reverse]
  | c :: cs, acc =>
    if c = ',' then String.mk acc.reverse :: splitCommaAux cs []
    else splitCommaAux cs (c :: acc)

/-- Split one CSV line into fields on commas.  Models `csv.reader` for
lines without quoting or embedded separators. -/
def splitFields (line : String) : List String := splitCommaAux line.data []

/-- The data rows `csv.DictReader` yields after the header line: blank
lines are skipped, each line's fields are zipped with the header (shorter
rows simply lack the trailing keys, which `row.get` then reports as
absent, matching the `None` restval), and fields beyond the header arity
are stored as the `None` restkey's value (`d[self.restkey] = row[lf:]`). -/
def parsedRows (fieldnames : List String) (dataLines : List String) : List Row :=
  (dataLines.filter (fun l => l ≠ "")).map (fun l =>
    { fields := fieldnames.zip (splitFields l),
      extras := (splitFields l).drop fieldnames.length })

/-- The running counters of the row loop: `kept_rows`, `total`,
`filtered_out`. -/
structure LoopState where
  kept : List Row
  total : Nat
  filtered_out : Nat
deriving Repr, DecidableEq

/-- One iteration of the row loop: bump `total`, extract the trimmed
lower-cased status and the trimmed date value, skip-and-count on date
parse failure, else keep the row unless the status is pending/cancelled
and the date is not strictly after the cutoff. -/
def processRow (status_key date_key : String) (cutoff : DateTime)
    (st : LoopState) (row : Row) : LoopState :=
  let status_raw := lowerStr (stripStr ((Row.get row status_key).getD ""))
  let date_raw := stripStr ((Row.get row date_key).getD "")
  match parse_date date_raw with
  | none => { st with total := st.total + 1, filtered_out := st.filtered_out + 1 }
  | some order_dt =>
    if (status_raw ≠ "pending" ∧ status_raw ≠ "cancelled") ∨ DateTime.ltb cutoff order_dt then
      { st with total := st.total + 1, kept := st.kept ++ [row] }
    else
      { st with total := st.total + 1, filtered_out := st.filtered_out + 1 }

/-- The whole row loop, starting from empty counters. -/
def processRows (status_key date_key : String) (cutoff : DateTime) (rows : List Row) : LoopState :=
  rows.foldl (processRow status_key date_key cutoff) ⟨[], 0, 0⟩

/-- Join fields with commas. -/
def joinFieldsComma : List String → String
  | [] => ""
  | [f] => f
  | f :: fs => f ++ "," ++ joinFieldsComma fs

/-- One output line as written by the `csv` writer: fields joined by
commas, CRLF-terminated. -/
def csvLine (fields : List String) : String :=
  joinFieldsComma fields ++ "\r\n"

/-- The output buffer: `writer.writeheader()` then `writer.writerows` of
the kept rows, each field looked up by header in original header
order (`csv.DictWriter` with the input fieldnames). -/
def serializeOutput (fieldnames : List String) (kept : List Row) : String :=
  csvLine fieldnames ++
    String.join (kept.map (fun r => csvLine (fieldnames.map (fun f => (Row.get r f).getD ""))))

/-- Replace the first occurrence of `pat` in the character list with
`sub`, as Python `str.replace(pat, sub, 1)` scanning left to right. -/
def replaceFirstAux (pat sub : List Char) : List Char → List Char
  | [] => []
  | c :: cs =>
    if pat.isPrefixOf (c :: cs) then sub ++ (c :: cs).drop pat.length
    else c :: replaceFirstAux pat sub cs

/-- `raw_key.replace("raw/", "processed/", 1)`. -/
def processedKeyOf (raw_key : String) : String :=
  String.mk (replaceFirstAux "raw/".data "processed/".data raw_key.data)

/-- Whether `pat` occurs as a contiguous substring of the list. -/
def hasSubstr (pat : List Char) : List Char → Bool
  | [] => pat.isEmpty
  | c :: cs => pat.isPrefixOf (c :: cs) || hasSubstr pat cs

/-- The handler's returned `{"statusCode": ..., "body": ...}` value. -/
structure Response where
  statusCode : Nat
  body : String
deriving Repr, DecidableEq

/-- The observable outcome of one invocation: a normal return carrying
the output object written (destination key and content), if any, and the
response value; the `KeyError` raised when a required column is missing;
or the `ValueError` raised by `csv.DictWriter` when a kept row holds keys
outside the fieldnames (its `None` restkey), which aborts the invocation
before anything is put. -/
inductive HandlerResult where
  | success (written : Option (String × String)) (resp : Response)
  | keyError
  | valueError
deriving Repr, DecidableEq

/-- `lambda_handler`, as a function of the decoded object key, the
decoded text lines of the fetched object, and the invocation cutoff
(`datetime.now() - timedelta(days=30)`).  Empty input returns success
without writing; failed column resolution (a `None` key, or Python-falsy
empty string) raises `KeyError`; a kept row carrying restkey extras makes
`writer.writerows` raise `ValueError` before the put; otherwise the rows
are filtered, the output serialized and written to the derived key, and
the summary returned. -/
def lambda_handler (raw_key : String) (lines : List String) (cutoff : DateTime) : HandlerResult :=
  match lines with
  | [] => .success none ⟨200, "Empty file"⟩
  | headerLine :: dataLines =>
    let fieldnames := splitFields headerLine
    match resolveStatus fieldnames, resolveDate fieldnames with
    | some status_key, some date_key =>
      if status_key = "" ∨ date_key = "" then .keyError
      else
        let st := processRows status_key date_key cutoff (parsedRows fieldnames dataLines)
        if st.kept.any (fun r => r.extras ≠ []) then .valueError
        else
          let processed_key := processedKeyOf raw_key
          .success (some (processed_key, serializeOutput fieldnames st.kept))
            ⟨200, "Kept " ++ toString st.kept.length ++ " of " ++ toString st.total ++
                  " rows -> " ++ processed_key⟩
    | _, _ => .keyError

theorem DateTime.ltb_irrefl (a : DateTime) : DateTime.ltb a a = false := by
  simp [DateTime.ltb]

theorem append_singleton_ne (l : List Row) (r : Row) : l ++ [r] ≠ l := by
  intro h
  have := congrArg List.length h
  simp at this

/-- C1: for a row whose date parses, the row is kept iff its trimmed
lower-cased status is not exactly "pending" or "cancelled", or its parsed
date is strictly after the cutoff; in particular a pending/cancelled row
whose parsed date equals the cutoff is excluded (and counted as filtered
out). -/
theorem C1_retention_rule (sk dk : String) (cutoff : DateTime) (st : LoopState)
    (row : Row) (dt : DateTime)
    (hp : parse_date (stripStr ((Row.get row dk).getD "")) = some dt) :
    ((processRow sk dk cutoff st row).kept = st.kept ++ [row] ↔
      ((lowerStr (stripStr ((Row.get row sk).getD "")) ≠ "pending" ∧
        lowerStr (stripStr ((Row.get row sk).getD "")) ≠ "cancelled") ∨
        DateTime.ltb cutoff dt = true)) ∧
    (dt = cutoff →
      (lowerStr (stripStr ((Row.get row sk).getD "")) = "pending" ∨
       lowerStr (stripStr ((Row.get row sk).getD "")) = "cancelled") →
      (processRow sk dk cutoff st row).kept = st.kept ∧
      (processRow sk dk cutoff st row).filtered_out = st.filtered_out + 1) := by
  simp only [processRow, hp]
  by_cases hc : ((lowerStr (stripStr ((Row.get row sk).getD "")) ≠ "pending" ∧
        lowerStr (stripStr ((Row.get row sk).getD "")) ≠ "cancelled") ∨
        DateTime.ltb cutoff dt = true)
  · simp only [if_pos hc]
    refine ⟨by simpa using hc, ?_⟩
    rintro rfl hstat
    rcases hc with ⟨h1, h2⟩ | h3
    · rcases hstat with h | h
      · exact absurd h h1
      · exact absurd h h2
    · rw [DateTime.ltb_irrefl] at h3; exact absurd h3 (by simp)
  · simp only [if_neg hc]
    constructor
    · simp only [iff_false, hc]
      exact fun h => append_singleton_ne st.kept row h.symm
    · intro _ _; exact ⟨by simp, by simp⟩

/-- Witness for C1: a pending row dated exactly at the cutoff is dropped
and counted as filtered out. -/
theorem C1_retention_rule_witness :
    (processRow "s" "d" ⟨2024, 1, 15, 0, 0, 0⟩ ⟨[], 0, 0⟩
        (⟨[("s", "pending"), ("d", "2024-01-15")], []⟩ : Row)).kept = [] ∧
    (processRow "s" "d" ⟨2024, 1, 15, 0, 0, 0⟩ ⟨[], 0, 0⟩
        (⟨[("s", "pending"), ("d", "2024-01-15")], []⟩ : Row)).filtered_out = 0 + 1 :=
  (C1_retention_rule "s" "d" ⟨2024, 1, 15, 0, 0, 0⟩ ⟨[], 0, 0⟩
      (⟨[("s", "pending"), ("d", "2024-01-15")], []⟩ : Row) ⟨2024, 1, 15, 0, 0, 0⟩ (by decide)).2
    rfl (Or.inl (by decide))

theorem replaceFirstAux_of_not_hasSubstr (pat sub cs : List Char)
    (h : hasSubstr pat cs = false) : replaceFirstAux pat sub cs = cs := by
  induction cs with
  | nil => rfl
  | cons c cs ih =>
    simp only [hasSubstr, Bool.or_eq_false_iff] at h
    simp [replaceFirstAux, h.1, ih h.2]

/-- C6: an input object that decodes to no lines returns success
immediately, with no output object written (the `written` component of the
result is `none`). -/
theorem C6_empty_input (raw_key : String) (cutoff : DateTime) :
    lambda_handler raw_key [] cutoff = .success none ⟨200, "Empty file"⟩ := rfl

/-- C4: the destination key replaces the first occurrence of the
substring "raw/" with "processed/"; with no occurrence the key is
unchanged; "raw/2024/jan.csv" maps to "processed/2024/jan.csv",
"archive/jan.csv" maps to itself, and only the first occurrence is
replaced. -/
theorem C4_destination_key :
    (∀ key : String, hasSubstr "raw/".data key.data = false → processedKeyOf key = key) ∧
    processedKeyOf "raw/2024/jan.csv" = "processed/2024/jan.csv" ∧
    processedKeyOf "archive/jan.csv" = "archive/jan.csv" ∧
    processedKeyOf "a/raw/b/raw/c" = "a/processed/b/raw/c" := by
  refine ⟨?_, by decide, by decide, by decide⟩
  intro key h
  show String.mk (replaceFirstAux "raw/".data "processed/".data key.data) = key
  rw [replaceFirstAux_of_not_hasSubstr _ _ _ h]

/-- Witness for C4: the no-occurrence case at a concrete key. -/
theorem C4_destination_key_witness : processedKeyOf "archive/jan.csv" = "archive/jan.csv" :=
  C4_destination_key.1 "archive/jan.csv" (by decide)

theorem strptime_midnight (fmt : List Tok) (s : String) (dt : DateTime)
    (h : strptime fmt s = some dt) : dt.hour = 0 ∧ dt.minute = 0 ∧ dt.second = 0 := by
  unfold strptime at h
  cases hm : matchToks fmt s.data {} with
  | none => rw [hm] at h; simp at h
  | some p =>
    rw [hm] at h
    simp only [Option.some_bind] at h
    unfold mkDatetime at h
    split at h
    · injection h with h
      subst h
      exact ⟨rfl, rfl, rfl⟩
    · simp at h

/-- C3: the date parser strips the input and tries the formats
YYYY-MM-DD, MM/DD/YYYY, YYYY/MM/DD, DD-MM-YYYY in that fixed order,
returning the first success as midnight of the parsed date, and fails iff
no format matches; "2024-01-15", "01/15/2024", "2024/01/15" and
"15-01-2024" all parse to the same calendar date, and "not-a-date"
fails. -/
theorem C3_parse_date :
    (∀ s : String, parse_date s =
      ((strptime fmtIsoDash (stripStr s)).orElse (fun _ =>
        (strptime fmtUsSlash (stripStr s)).orElse (fun _ =>
          (strptime fmtIsoSlash (stripStr s)).orElse (fun _ =>
            strptime fmtEuDash (stripStr s)))))) ∧
    (∀ s : String, parse_date s = none ↔ ∀ fmt ∈ DATE_FORMATS, strptime fmt (stripStr s) = none) ∧
    (∀ (s : String) (dt : DateTime),
      parse_date s = some dt → dt.hour = 0 ∧ dt.minute = 0 ∧ dt.second = 0) ∧
    parse_date "2024-01-15" = some ⟨2024, 1, 15, 0, 0, 0⟩ ∧
    parse_date "01/15/2024" = some ⟨2024, 1, 15, 0, 0, 0⟩ ∧
    parse_date "2024/01/15" = some ⟨2024, 1, 15, 0, 0, 0⟩ ∧
    parse_date "15-01-2024" = some ⟨2024, 1, 15, 0, 0, 0⟩ ∧
    parse_date "not-a-date" = none := by
  refine ⟨?_, ?_, ?_, by decide, by decide, by decide, by decide, by decide⟩
  · intro s
    simp only [parse_date, DATE_FORMATS]
    cases h1 : strptime fmtIsoDash (stripStr s) <;>
      cases h2 : strptime fmtUsSlash (stripStr s) <;>
        cases h3 : strptime fmtIsoSlash (stripStr s) <;>
          cases h4 : strptime fmtEuDash (stripStr s) <;>
            simp [List.findSome?, h1, h2, h3, h4, Option.orElse]
  · intro s
    simp only [parse_date, DATE_FORMATS]
    cases h1 : strptime fmtIsoDash (stripStr s) <;>
      cases h2 : strptime fmtUsSlash (stripStr s) <;>
        cases h3 : strptime fmtIsoSlash (stripStr s) <;>
          cases h4 : strptime fmtEuDash (stripStr s) <;>
            simp [List.findSome?, h1, h2, h3, h4]
  · intro s dt h
    simp only [parse_date, DATE_FORMATS] at h
    cases h1 : strptime fmtIsoDash (stripStr s) <;>
      cases h2 : strptime fmtUsSlash (stripStr s) <;>
        cases h3 : strptime fmtIsoSlash (stripStr s) <;>
          cases h4 : strptime fmtEuDash (stripStr s) <;>
            simp only [List.findSome?, h1, h2, h3, h4, Option.some.injEq] at h <;>
            try subst h
    all_goals
      first
        | exact strptime_midnight _ _ _ h1
        | exact strptime_midnight _ _ _ h2
        | exact strptime_midnight _ _ _ h3
        | exact strptime_midnight _ _ _ h4
        | exact absurd h (by simp)

/-- Witness for C3: the midnight consequence applied at a concrete
parse. -/
theorem C3_parse_date_witness :
    (⟨2024, 1, 15, 0, 0, 0⟩ : DateTime).hour = 0 ∧
    (⟨2024, 1, 15, 0, 0, 0⟩ : DateTime).minute = 0 ∧
    (⟨2024, 1, 15, 0, 0, 0⟩ : DateTime).second = 0 :=
  C3_parse_date.2.2.1 "15-01-2024" ⟨2024, 1, 15, 0, 0, 0⟩ (by decide)

/-- C2: headers are normalized by lower-casing and removing spaces and
underscores, with the last occurrence winning on duplicate normalized
keys; the status column tries normalized candidates "status" then
"orderstatus" (first match wins) and the date column tries "orderdate"
then "date" (first match wins; the source's third candidate "order_date"
normalizes to "orderdate" and is redundant); the raw headers "Status",
"STATUS", "order_status" and "OrderStatus" all resolve. -/
theorem C2_header_resolution :
    (∀ (hs : List String) (h : String), normalizeHeader h = "status" →
      lookupLast (header_map (hs ++ [h])) "status" = some h) ∧
    (∀ (hs : List String) (x : String), lookupLast (header_map hs) "status" = some x →
      resolveStatus hs = some x) ∧
    (∀ hs : List String, lookupLast (header_map hs) "status" = none →
      resolveStatus hs = lookupLast (header_map hs) "orderstatus") ∧
    (∀ (hs : List String) (x : String), lookupLast (header_map hs) "orderdate" = some x →
      resolveDate hs = some x) ∧
    (∀ hs : List String, lookupLast (header_map hs) "orderdate" = none →
      resolveDate hs = lookupLast (header_map hs) "date") ∧
    resolveStatus ["Status"] = some "Status" ∧
    resolveStatus ["STATUS"] = some "STATUS" ∧
    resolveStatus ["order_status"] = some "order_status" ∧
    resolveStatus ["OrderStatus"] = some "OrderStatus" := by
  have e1 : String.mk ("orderdate".data.filter (fun c => c ≠ '_')) = "orderdate" := by decide
  have e2 : String.mk ("date".data.filter (fun c => c ≠ '_')) = "date" := by decide
  have e3 : String.mk ("order_date".data.filter (fun c => c ≠ '_')) = "orderdate" := by decide
  refine ⟨?_, ?_, ?_, ?_, ?_, by decide, by decide, by decide, by decide⟩
  · intro hs h hn
    simp [lookupLast, header_map, List.filter_append, hn, List.getLast?_concat]
  · intro hs x hx
    simp [resolveStatus, List.findSome?, hx]
  · intro hs hn
    simp only [resolveStatus, List.findSome?, hn]
    cases lookupLast (header_map hs) "orderstatus" <;> simp
  · intro hs x hx
    simp only [resolveDate, dateCandidates, List.findSome?, e1, e2, e3, hx]
  · intro hs hn
    simp only [resolveDate, dateCandidates, List.findSome?, e1, e2, e3, hn]
    cases lookupLast (header_map hs) "date" <;> simp

/-- Witness for C2: the last of two headers normalizing to "status"
wins. -/
theorem C2_header_resolution_witness :
    lookupLast (header_map (["status"] ++ ["Status"])) "status" = some "Status" :=
  C2_header_resolution.1 ["status"] "Status" (by decide)

/-- C5: when the status or the date column fails to resolve from the
header row, the invocation raises `KeyError` — it never returns a result,
so no output object is written and no row is processed. -/
theorem C5_missing_column (raw_key headerLine : String) (dataLines : List String)
    (cutoff : DateTime)
    (h : resolveStatus (splitFields headerLine) = none ∨
         resolveDate (splitFields headerLine) = none) :
    lambda_handler raw_key (headerLine :: dataLines) cutoff = .keyError ∧
    ∀ w resp, lambda_handler raw_key (headerLine :: dataLines) cutoff ≠ .success w resp := by
  have hk : lambda_handler raw_key (headerLine :: dataLines) cutoff = .keyError := by
    rcases h with h | h
    · cases hd : resolveDate (splitFields headerLine) <;> simp [lambda_handler, h, hd]
    · cases hsx : resolveStatus (splitFields headerLine) <;> simp [lambda_handler, h, hsx]
  refine ⟨hk, ?_⟩
  intro w resp hcontra
  rw [hk] at hcontra
  exact HandlerResult.noConfusion hcontra

/-- Witness for C5: a header with neither status nor date column. -/
theorem C5_missing_column_witness :
    lambda_handler "raw/x.csv" ["id,name"] ⟨2024, 2, 1, 0, 0, 0⟩ = .keyError :=
  (C5_missing_column "raw/x.csv" "id,name" [] ⟨2024, 2, 1, 0, 0, 0⟩ (Or.inl (by decide))).1

/-- C7: a row whose date fails to parse is not kept, increments the
filtered-out counter, still counts toward the total, and the loop moves
on; whenever the columns resolve the invocation never raises, whatever
the rows contain. -/
theorem C7_bad_date_row (sk dk : String) (cutoff : DateTime) (st : LoopState) (row : Row)
    (h : parse_date (stripStr ((Row.get row dk).getD "")) = none) :
    (processRow sk dk cutoff st row).kept = st.kept ∧
    (processRow sk dk cutoff st row).filtered_out = st.filtered_out + 1 ∧
    (processRow sk dk cutoff st row).total = st.total + 1 ∧
    (∀ (raw_key headerLine : String) (dataLines : List String) (sk2 dk2 : String),
      resolveStatus (splitFields headerLine) = some sk2 → sk2 ≠ "" →
      resolveDate (splitFields headerLine) = some dk2 → dk2 ≠ "" →
      lambda_handler raw_key (headerLine :: dataLines) cutoff ≠ .keyError) := by
  refine ⟨by simp [processRow, h], by simp [processRow, h], by simp [processRow, h], ?_⟩
  intro raw_key headerLine dataLines sk2 dk2 hs hs0 hd hd0
  simp only [lambda_handler, hs, hd]
  rw [if_neg (by simp [hs0, hd0])]
  split
  · intro hcontra; exact HandlerResult.noConfusion hcontra
  · intro hcontra; exact HandlerResult.noConfusion hcontra

/-- Witness for C7: a row with an unparseable date is skipped and
counted. -/
theorem C7_bad_date_row_witness :
    (processRow "s" "d" ⟨2024, 2, 1, 0, 0, 0⟩ ⟨[], 0, 0⟩
        (⟨[("s", "shipped"), ("d", "not-a-date")], []⟩ : Row)).kept = [] ∧
    (processRow "s" "d" ⟨2024, 2, 1, 0, 0, 0⟩ ⟨[], 0, 0⟩
        (⟨[("s", "shipped"), ("d", "not-a-date")], []⟩ : Row)).filtered_out = 0 + 1 ∧
    (processRow "s" "d" ⟨2024, 2, 1, 0, 0, 0⟩ ⟨[], 0, 0⟩
        (⟨[("s", "shipped"), ("d", "not-a-date")], []⟩ : Row)).total = 0 + 1 :=
  have h := C7_bad_date_row "s" "d" ⟨2024, 2, 1, 0, 0, 0⟩ ⟨[], 0, 0⟩
    (⟨[("s", "shipped"), ("d", "not-a-date")], []⟩ : Row) (by decide)
  ⟨h.1, h.2.1, h.2.2.1⟩

theorem processRow_invariant (sk dk : String) (cutoff : DateTime) (st : LoopState) (row : Row)
    (h : st.total = st.kept.length + st.filtered_out) :
    (processRow sk dk cutoff st row).total =
      (processRow sk dk cutoff st row).kept.length +
        (processRow sk dk cutoff st row).filtered_out := by
  simp only [processRow]
  cases parse_date (stripStr ((Row.get row dk).getD "")) with
  | none => simp; omega
  | some dt =>
    by_cases hc : (lowerStr (stripStr ((Row.get row sk).getD "")) ≠ "pending" ∧
        lowerStr (stripStr ((Row.get row sk).getD "")) ≠ "cancelled") ∨
        DateTime.ltb cutoff dt = true
    · simp [if_pos hc]
      omega
    · simp [if_neg hc]
      omega

theorem foldl_processRow_invariant (sk dk : String) (cutoff : DateTime) :
    ∀ (rows : List Row) (st : LoopState), st.total = st.kept.length + st.filtered_out →
      (rows.foldl (processRow sk dk cutoff) st).total =
        (rows.foldl (processRow sk dk cutoff) st).kept.length +
          (rows.foldl (processRow sk dk cutoff) st).filtered_out := by
  intro rows
  induction rows with
  | nil => intro st h; simpa using h
  | cons r rs ih => intro st h; exact ih _ (processRow_invariant sk dk cutoff st r h)

theorem string_append_empty (s : String) : s ++ "" = s := by
  cases s with
  | mk d => show String.mk (d ++ []) = String.mk d; rw [List.append_nil]

/-- C9: after the row loop the counters satisfy
total = kept + filtered_out, hence kept ≤ total; consequently whenever the
handler returns a written result, its summary body reads
"Kept k of t rows -> key" with k ≤ t. -/
theorem C9_counters (sk dk : String) (cutoff : DateTime) (rows : List Row) :
    (processRows sk dk cutoff rows).total =
      (processRows sk dk cutoff rows).kept.length +
        (processRows sk dk cutoff rows).filtered_out ∧
    (processRows sk dk cutoff rows).kept.length ≤ (processRows sk dk cutoff rows).total ∧
    (∀ (raw_key headerLine : String) (dataLines : List String) (w : String × String)
        (resp : Response),
      lambda_handler raw_key (headerLine :: dataLines) cutoff = .success (some w) resp →
      ∃ k t : Nat, k ≤ t ∧
        resp.body = "Kept " ++ toString k ++ " of " ++ toString t ++ " rows -> " ++ w.1) := by
  have hinv : (processRows sk dk cutoff rows).total =
      (processRows sk dk cutoff rows).kept.length +
        (processRows sk dk cutoff rows).filtered_out :=
    foldl_processRow_invariant sk dk cutoff rows ⟨[], 0, 0⟩ rfl
  refine ⟨hinv, by rw [hinv]; omega, ?_⟩
  intro raw_key headerLine dataLines w resp heq
  cases hsx : resolveStatus (splitFields headerLine) with
  | none =>
    cases hdx : resolveDate (splitFields headerLine) <;>
      simp [lambda_handler, hsx, hdx] at heq
  | some sk2 =>
    cases hdx : resolveDate (splitFields headerLine) with
    | none => simp [lambda_handler, hsx, hdx] at heq
    | some dk2 =>
      simp only [lambda_handler, hsx, hdx] at heq
      split at heq
      · exact absurd heq (by simp)
      · split at heq
        · exact absurd heq (by simp)
        · injection heq with h1 h2
          injection h1 with h1
          subst h1 h2
          have hinv2 : (processRows sk2 dk2 cutoff
                (parsedRows (splitFields headerLine) dataLines)).total =
              (processRows sk2 dk2 cutoff
                (parsedRows (splitFields headerLine) dataLines)).kept.length +
                (processRows sk2 dk2 cutoff
                  (parsedRows (splitFields headerLine) dataLines)).filtered_out :=
            foldl_processRow_invariant sk2 dk2 cutoff
              (parsedRows (splitFields headerLine) dataLines) ⟨[], 0, 0⟩ rfl
          exact ⟨(processRows sk2 dk2 cutoff
              (parsedRows (splitFields headerLine) dataLines)).kept.length,
            (processRows sk2 dk2 cutoff
              (parsedRows (splitFields headerLine) dataLines)).total,
            by rw [hinv2]; omega, rfl⟩

/-- Witness for C9: the summary of a concrete one-row run has k ≤ t. -/
theorem C9_counters_witness :
    ∃ k t : Nat, k ≤ t ∧
      (⟨200, "Kept 1 of 1 rows -> processed/a.csv"⟩ : Response).body =
        "Kept " ++ toString k ++ " of " ++ toString t ++ " rows -> " ++
          ("processed/a.csv", "Status,OrderDate\r\nshipped,2024-03-01\r\n").1 :=
  (C9_counters "Status" "OrderDate" ⟨2024, 2, 1, 0, 0, 0⟩ []).2.2
    "raw/a.csv" "Status,OrderDate" ["shipped,2024-03-01"]
    ("processed/a.csv", "Status,OrderDate\r\nshipped,2024-03-01\r\n")
    ⟨200, "Kept 1 of 1 rows -> processed/a.csv"⟩ (by decide)

/-- C10: a header-only input whose columns resolve writes an output
object consisting of just the header line and returns success with
summary "Kept 0 of 0 rows", unlike the no-lines case where nothing is
written. -/
theorem C10_header_only (raw_key headerLine : String) (cutoff : DateTime) (sk dk : String)
    (hs : resolveStatus (splitFields headerLine) = some sk) (hs0 : sk ≠ "")
    (hd : resolveDate (splitFields headerLine) = some dk) (hd0 : dk ≠ "") :
    lambda_handler raw_key [headerLine] cutoff =
      .success (some (processedKeyOf raw_key, csvLine (splitFields headerLine)))
        ⟨200, "Kept 0 of 0 rows -> " ++ processedKeyOf raw_key⟩ ∧
    lambda_handler raw_key [] cutoff = .success none ⟨200, "Empty file"⟩ := by
  refine ⟨?_, rfl⟩
  simp only [lambda_handler, hs, hd]
  rw [if_neg (by simp [hs0, hd0])]
  refine congrArg₂ HandlerResult.success (congrArg some (congrArg₂ Prod.mk rfl ?_)) ?_
  · show csvLine (splitFields headerLine) ++ "" = csvLine (splitFields headerLine)
    exact string_append_empty _
  · rw [show (processRows sk dk cutoff (parsedRows (splitFields headerLine) [])).kept.length = 0
          from rfl,
        show (processRows sk dk cutoff (parsedRows (splitFields headerLine) [])).total = 0
          from rfl]
    rfl

/-- Witness for C10: a concrete header-only object is written as just
the header. -/
theorem C10_header_only_witness :
    lambda_handler "raw/a.csv" ["Status,OrderDate"] ⟨2024, 2, 1, 0, 0, 0⟩ =
      .success (some (processedKeyOf "raw/a.csv", csvLine (splitFields "Status,OrderDate")))
        ⟨200, "Kept 0 of 0 rows -> " ++ processedKeyOf "raw/a.csv"⟩ :=
  (C10_header_only "raw/a.csv" "Status,OrderDate" ⟨2024, 2, 1, 0, 0, 0⟩ "Status" "OrderDate"
    (by decide) (by decide) (by decide) (by decide)).1
